import Mathlib

/-!
Verification of the observable-container subsystem (`observables.py`) and the
startup-handler registration of the application object (`app.py`).

The embedding models Python values as an inductive type `Val`.  Containers
carry an `Option Nat` tag: `none` models a plain (bare) `dict`/`list`/`set`,
`some t` models the corresponding `Observable*` wrapper whose `on_change`
target is identified by `t`.  Dictionary keys and set elements are modelled as
`Nat` scalars (in Python they must be hashable, so they can never be a
`dict`/`list`/`set`).  `events.handle_event(self.on_change, None)` is modelled
by appending the target id to a `fired` trace; every operation returns the
new contents of the receiver, a return value (or the raised error), and the
trace of notification-target invocations made during the call.
-/

/-- Python runtime error classes raised by the builtin container operations. -/
inductive PyErr where
  | keyError
  | valueError
  | indexError
  | typeError
  | runtimeError
deriving Repr, DecidableEq

/-- A Python value: `None`, an opaque scalar, or a (possibly wrapped)
`dict`/`list`/`set`, or a tuple.  The `Option Nat` tag is `some t` for an
`Observable*` wrapper bound to notification target `t` and `none` for a bare
container. -/
inductive Val where
  | pynone : Val
  | scalar : Nat → Val
  | vdict : Option Nat → List (Nat × Val) → Val
  | vlist : Option Nat → List Val → Val
  | vset : Option Nat → List Nat → Val
  | vtuple : List Val → Val

mutual

/-- `make_observable(data, on_change)`: dispatches on the runtime type of
`data`; a `dict` becomes an `ObservableDict`, a `list` an `ObservableList`,
a `set` an `ObservableSet` (each constructor recursively converting its
contents), and any other value is returned unchanged.  The second component
is the trace of notification targets invoked during the call (the source
contains no `handle_event` call on this path, so only the recursive
conversions contribute). -/
def make_observable : Val → Nat → Val × List Nat
  | .vdict _ kvs, t =>
      let r := make_observable_entries kvs t
      (.vdict (some t) r.1, r.2)
  | .vlist _ xs, t =>
      let r := make_observable_list xs t
      (.vlist (some t) r.1, r.2)
  | .vset _ es, t => (.vset (some t) es, [])
  | v, _ => (v, [])

/-- `ObservableDict.__init__`: `super().__setitem__(key, make_observable(value, on_change))`
for every item, in order. -/
def make_observable_entries : List (Nat × Val) → Nat → List (Nat × Val) × List Nat
  | [], _ => ([], [])
  | (k, v) :: rest, t =>
      let r := make_observable v t
      let rs := make_observable_entries rest t
      ((k, r.1) :: rs.1, r.2 ++ rs.2)

/-- `ObservableList.__init__`: `super().__setitem__(i, make_observable(item, on_change))`
for every element, in order. -/
def make_observable_list : List Val → Nat → List Val × List Nat
  | [], _ => ([], [])
  | v :: rest, t =>
      let r := make_observable v t
      let rs := make_observable_list rest t
      (r.1 :: rs.1, r.2 ++ rs.2)

end

mutual

/-- Deep-wrapping invariant relative to target `t`: every reachable
sub-container whose native type is `dict`/`list`/`set` carries the wrapper
tag `some t`.  Tuples are traversed (their elements are reachable) but need
no tag of their own. -/
def deepWrapped (t : Nat) : Val → Bool
  | .pynone => true
  | .scalar _ => true
  | .vdict tag kvs => tag == some t && deepWrappedEntries t kvs
  | .vlist tag xs => tag == some t && deepWrappedList t xs
  | .vset tag _ => tag == some t
  | .vtuple xs => deepWrappedList t xs

def deepWrappedEntries (t : Nat) : List (Nat × Val) → Bool
  | [] => true
  | (_, v) :: rest => deepWrapped t v && deepWrappedEntries t rest

def deepWrappedList (t : Nat) : List Val → Bool
  | [] => true
  | v :: rest => deepWrapped t v && deepWrappedList t rest

end

mutual

/-- A value built by nesting only mappings, sequences and sets over scalars:
no tuple occurs anywhere (container tags are unconstrained). -/
def containerOnly : Val → Bool
  | .pynone => true
  | .scalar _ => true
  | .vdict _ kvs => containerOnlyEntries kvs
  | .vlist _ xs => containerOnlyList xs
  | .vset _ _ => true
  | .vtuple _ => false

def containerOnlyEntries : List (Nat × Val) → Bool
  | [] => true
  | (_, v) :: rest => containerOnly v && containerOnlyEntries rest

def containerOnlyList : List Val → Bool
  | [] => true
  | v :: rest => containerOnly v && containerOnlyList rest

end

mutual

/-- Python `==` on modelled values: wrapper tags are ignored (a wrapped
container compares equal to a bare one with the same contents, as in
CPython, where the wrappers are `dict`/`list`/`set` subclasses), lists and
tuples compare element-wise in order, sets by mutual membership, dicts by
equal length and key-wise equal values; values of different native kinds are
unequal. -/
def pyEq : Val → Val → Bool
  | .pynone, .pynone => true
  | .scalar a, .scalar b => a == b
  | .vdict _ a, .vdict _ b => a.length == b.length && pyEqDict b a
  | .vlist _ a, .vlist _ b => pyEqList a b
  | .vset _ a, .vset _ b => a.all (fun x => x ∈ b) && b.all (fun x => x ∈ a)
  | .vtuple a, .vtuple b => pyEqList a b
  | _, _ => false

def pyEqDict (b : List (Nat × Val)) : List (Nat × Val) → Bool
  | [] => true
  | (k, v) :: rest =>
      (match b.lookup k with
       | some w => pyEq v w
       | none => false) && pyEqDict b rest

def pyEqList : List Val → List Val → Bool
  | [], [] => true
  | a :: as_, b :: bs => pyEq a b && pyEqList as_ bs
  | _, _ => false

end

/-- `d[k]` lookup on the insertion-ordered association list modelling a dict. -/
def assocLookup : List (Nat × Val) → Nat → Option Val
  | [], _ => none
  | (k', v) :: rest, k => if k' == k then some v else assocLookup rest k

/-- `d[k] = v` on a dict: overwrite in place if the key exists (keeping its
position), else append at the end (insertion order). -/
def assocSet : List (Nat × Val) → Nat → Val → List (Nat × Val)
  | [], k, v => [(k, v)]
  | (k', v') :: rest, k, v =>
      if k' == k then (k', v) :: rest else (k', v') :: assocSet rest k v

/-- `del d[k]` on a dict known to contain `k`: drop the (unique) entry. -/
def assocRemove : List (Nat × Val) → Nat → List (Nat × Val)
  | [], _ => []
  | (k', v) :: rest, k =>
      if k' == k then rest else (k', v) :: assocRemove rest k

/-- `dict.update` merge: for each entry of `b` in order, overwrite-or-append
into `a`. -/
def dictMerge (a b : List (Nat × Val)) : List (Nat × Val) :=
  b.foldl (fun acc p => assocSet acc p.1 p.2) a

/-- Result of a map-wrapper operation: the entries afterwards, the returned
value or raised error, and the notification-target invocations in order. -/
structure DOut where
  entries : List (Nat × Val)
  ret : Except PyErr Val
  fired : List Nat

namespace ObservableDict

/-- `__setitem__`: store `make_observable(value, self.on_change)` at the key,
then `handle_event`. -/
def setitem (t : Nat) (kvs : List (Nat × Val)) (k : Nat) (v : Val) : DOut :=
  let m := make_observable v t
  ⟨assocSet kvs k m.1, .ok .pynone, m.2 ++ [t]⟩

/-- `__delitem__`: `super().__delitem__` raises `KeyError` on an absent key
(before `handle_event` runs); on success the entry is removed and the event
fires. -/
def delitem (t : Nat) (kvs : List (Nat × Val)) (k : Nat) : DOut :=
  match assocLookup kvs k with
  | some _ => ⟨assocRemove kvs k, .ok .pynone, [t]⟩
  | none => ⟨kvs, .error .keyError, []⟩

/-- `pop(k, d=None)`: `super().pop(k, d)` never raises (a default is always
supplied); `handle_event` fires unconditionally. -/
def pop (t : Nat) (kvs : List (Nat × Val)) (k : Nat) (d : Val := .pynone) : DOut :=
  match assocLookup kvs k with
  | some v => ⟨assocRemove kvs k, .ok v, [t]⟩
  | none => ⟨kvs, .ok d, [t]⟩

/-- `popitem()`: `super().popitem()` removes the most-recently-inserted item
(raising `KeyError` when empty, before `handle_event` runs). -/
def popitem (t : Nat) (kvs : List (Nat × Val)) : DOut :=
  match kvs.getLast? with
  | none => ⟨kvs, .error .keyError, []⟩
  | some p => ⟨kvs.dropLast, .ok (.vtuple [.scalar p.1, p.2]), [t]⟩

/-- `update(*args, **kwargs)`: `super().update(make_observable(dict(...), self.on_change))`
— the argument dict is deep-converted (an `ObservableDict` construction,
i.e. `make_observable_entries`) and merged; one `handle_event` for the call. -/
def update (t : Nat) (kvs : List (Nat × Val)) (other : List (Nat × Val)) : DOut :=
  let m := make_observable_entries other t
  ⟨dictMerge kvs m.1, .ok .pynone, m.2 ++ [t]⟩

/-- `clear()`: empty the dict, then `handle_event` (unconditionally). -/
def clear (t : Nat) (kvs : List (Nat × Val)) : DOut :=
  ⟨[], .ok .pynone, [t]⟩

/-- `setdefault(k, d=None)`: the default is converted by `make_observable`
before `super().setdefault`; `handle_event` fires whether or not an
insertion happened. -/
def setdefault (t : Nat) (kvs : List (Nat × Val)) (k : Nat) (d : Val := .pynone) : DOut :=
  let m := make_observable d t
  match assocLookup kvs k with
  | some v => ⟨kvs, .ok v, m.2 ++ [t]⟩
  | none => ⟨kvs ++ [(k, m.1)], .ok m.1, m.2 ++ [t]⟩

/-- `__or__`: `return super().__or__(other)` — a plain (bare) dict merging
receiver and operand; no mutation, no `handle_event`. -/
def __or__ (t : Nat) (kvs : List (Nat × Val)) (other : List (Nat × Val)) : DOut :=
  ⟨kvs, .ok (.vdict none (dictMerge kvs other)), []⟩

/-- `__ior__`: `super().__ior__(make_observable(dict(other), self.on_change))`
then one `handle_event`; the receiver itself is updated. -/
def __ior__ (t : Nat) (kvs : List (Nat × Val)) (other : List (Nat × Val)) : DOut :=
  let m := make_observable_entries other t
  ⟨dictMerge kvs m.1, .ok .pynone, m.2 ++ [t]⟩

end ObservableDict

/-- Result of a sequence-wrapper operation. -/
structure LOut where
  elems : List Val
  ret : Except PyErr Val
  fired : List Nat

/-- Python iteration over a value, as used by `list(iterable)` and by
`list.__iadd__`: lists and tuples yield their elements, sets their
(scalar) elements, dicts their keys; any other value raises `TypeError`. -/
def elementsOf : Val → Except PyErr (List Val)
  | .vlist _ es => .ok es
  | .vtuple es => .ok es
  | .vset _ es => .ok (es.map .scalar)
  | .vdict _ kvs => .ok (kvs.map (fun p => .scalar p.1))
  | _ => .error .typeError

/-- `list.insert` index clamping: a negative index counts from the end and
clamps to 0; an index past the end clamps to the length. -/
def clampIndex (n : Nat) (i : Int) : Nat :=
  if i < 0 then (max (i + n) 0).toNat else min i.toNat n

/-- Normalised sequence index for item access: `some j` when `i` (negative
counting from the end) lands in `[0, n)`, else `none` (`IndexError`). -/
def normIndex (n : Nat) (i : Int) : Option Nat :=
  let j := if i < 0 then i + n else i
  if 0 ≤ j ∧ j < n then some j.toNat else none

/-- First-occurrence removal by Python equality, as in `list.remove`:
`none` when no element compares equal. -/
def listRemoveFirst (v : Val) : List Val → Option (List Val)
  | [] => none
  | x :: rest =>
      if pyEq x v then some rest
      else (listRemoveFirst v rest).map (fun ys => x :: ys)

/-- Stable insertion sort with a boolean comparator, modelling
`list.sort(**kwargs)`'s in-place reordering. -/
def insertSorted (le : Val → Val → Bool) (x : Val) : List Val → List Val
  | [] => [x]
  | y :: ys => if le x y then x :: y :: ys else y :: insertSorted le x ys

def pySort (le : Val → Val → Bool) (xs : List Val) : List Val :=
  xs.foldr (insertSorted le) []

namespace ObservableList

/-- `append`: `super().append(make_observable(item, self.on_change))`, then
one `handle_event`. -/
def append (t : Nat) (xs : List Val) (item : Val) : LOut :=
  let m := make_observable item t
  ⟨xs ++ [m.1], .ok .pynone, m.2 ++ [t]⟩

/-- `extend`: the iterable is first copied to a plain list (`list(iterable)`),
that list is deep-converted (`make_observable`, i.e. an `ObservableList`
construction over its elements), and the result extends the receiver; one
`handle_event` for the whole batch. -/
def extend (t : Nat) (xs : List Val) (iterable : Val) : LOut :=
  match elementsOf iterable with
  | .error e => ⟨xs, .error e, []⟩
  | .ok es =>
      let m := make_observable_list es t
      ⟨xs ++ m.1, .ok .pynone, m.2 ++ [t]⟩

/-- `insert`: converts the object and inserts at the clamped index; one
`handle_event`. -/
def insert (t : Nat) (xs : List Val) (index : Int) (object : Val) : LOut :=
  let m := make_observable object t
  let j := clampIndex xs.length index
  ⟨xs.take j ++ m.1 :: xs.drop j, .ok .pynone, m.2 ++ [t]⟩

/-- `remove`: `super().remove(value)` raises `ValueError` when no element
compares equal (before `handle_event` runs); on success the first matching
element is removed and the event fires. -/
def remove (t : Nat) (xs : List Val) (value : Val) : LOut :=
  match listRemoveFirst value xs with
  | some ys => ⟨ys, .ok .pynone, [t]⟩
  | none => ⟨xs, .error .valueError, []⟩

/-- `pop(index=-1)`: `super().pop(index)` raises `IndexError` on an empty
list or an out-of-range index (before `handle_event` runs); on success the
element is removed and returned and the event fires. -/
def pop (t : Nat) (xs : List Val) (index : Int := -1) : LOut :=
  match normIndex xs.length index with
  | some j => ⟨xs.take j ++ xs.drop (j + 1), .ok (xs.getD j .pynone), [t]⟩
  | none => ⟨xs, .error .indexError, []⟩

/-- `clear()`: empties the list, then `handle_event` (unconditionally). -/
def clear (t : Nat) (xs : List Val) : LOut :=
  ⟨[], .ok .pynone, [t]⟩

/-- `sort(**kwargs)`: `super().sort(**kwargs)` reorders in place (modelled by
a stable sort under the comparator), then one `handle_event`, whether or not
the order changed. -/
def sort (t : Nat) (xs : List Val) (le : Val → Val → Bool) : LOut :=
  ⟨pySort le xs, .ok .pynone, [t]⟩

/-- `reverse()`: reverses in place, then one `handle_event`. -/
def reverse (t : Nat) (xs : List Val) : LOut :=
  ⟨xs.reverse, .ok .pynone, [t]⟩

/-- `__delitem__` with an integer index: `IndexError` when out of range
(before `handle_event` runs). -/
def delitem (t : Nat) (xs : List Val) (key : Int) : LOut :=
  match normIndex xs.length key with
  | some j => ⟨xs.take j ++ xs.drop (j + 1), .ok .pynone, [t]⟩
  | none => ⟨xs, .error .indexError, []⟩

/-- `__setitem__` with an integer index: stores
`make_observable(value, self.on_change)`; `IndexError` when out of range
(the conversion has already run by then, firing nothing). -/
def setitem (t : Nat) (xs : List Val) (key : Int) (value : Val) : LOut :=
  let m := make_observable value t
  match normIndex xs.length key with
  | some j => ⟨xs.take j ++ m.1 :: xs.drop (j + 1), .ok .pynone, m.2 ++ [t]⟩
  | none => ⟨xs, .error .indexError, m.2⟩

/-- `__add__`: `return super().__add__(other)` — a plain (bare) list
concatenating receiver and operand; no mutation, no `handle_event`. -/
def __add__ (t : Nat) (xs : List Val) (other : List Val) : LOut :=
  ⟨xs, .ok (.vlist none (xs ++ other)), []⟩

/-- `__iadd__`: `super().__iadd__(make_observable(other, self.on_change))` —
the operand is converted as a whole (so a list operand is wrapped and its
elements converted, while e.g. a tuple operand passes through unchanged)
and then iterated to extend the receiver; one `handle_event`. -/
def __iadd__ (t : Nat) (xs : List Val) (other : Val) : LOut :=
  let m := make_observable other t
  match elementsOf m.1 with
  | .error e => ⟨xs, .error e, m.2⟩
  | .ok es => ⟨xs ++ es, .ok .pynone, m.2 ++ [t]⟩

end ObservableList

/-- Result of a set-wrapper operation (set elements are hashable scalars). -/
structure SOut where
  elems : List Nat
  ret : Except PyErr Val
  fired : List Nat

/-- Insertion into a set: a no-op when the element is already present. -/
def setInsert (es : List Nat) (x : Nat) : List Nat :=
  if x ∈ es then es else es ++ [x]

/-- `set(iterable)`: deduplicating copy. -/
def pyDedup (xs : List Nat) : List Nat :=
  xs.foldl setInsert []

/-- `set(*s)`: the `set` constructor accepts at most one positional argument;
two or more raise `TypeError`. -/
def pySetOfArgs : List (List Nat) → Except PyErr (List Nat)
  | [] => .ok []
  | [a] => .ok (pyDedup a)
  | _ => .error .typeError

/-- `set.update` element addition: add each element of `u` in order. -/
def setUnion (es u : List Nat) : List Nat :=
  u.foldl setInsert es

namespace ObservableSet

/-- `add`: `super().add(make_observable(item, self.on_change))` (conversion
is the identity on a hashable scalar), then one `handle_event`. -/
def add (t : Nat) (es : List Nat) (item : Nat) : SOut :=
  let m := make_observable (.scalar item) t
  ⟨setInsert es item, .ok .pynone, m.2 ++ [t]⟩

/-- `remove`: `super().remove(item)` raises `KeyError` when the element is
absent (before `handle_event` runs). -/
def remove (t : Nat) (es : List Nat) (item : Nat) : SOut :=
  if item ∈ es then ⟨es.filter (fun x => x ≠ item), .ok .pynone, [t]⟩
  else ⟨es, .error .keyError, []⟩

/-- `discard`: never raises — removes the element when present, does nothing
otherwise; `handle_event` fires unconditionally. -/
def discard (t : Nat) (es : List Nat) (item : Nat) : SOut :=
  ⟨es.filter (fun x => x ≠ item), .ok .pynone, [t]⟩

/-- `pop()`: `super().pop()` removes and returns an arbitrary element
(modelled as the first), raising `KeyError` when empty (before
`handle_event` runs). -/
def pop (t : Nat) (es : List Nat) : SOut :=
  match es with
  | [] => ⟨es, .error .keyError, []⟩
  | x :: rest => ⟨rest, .ok (.scalar x), [t]⟩

/-- `clear()`: empties the set, then `handle_event` (unconditionally). -/
def clear (t : Nat) (es : List Nat) : SOut :=
  ⟨[], .ok .pynone, [t]⟩

/-- `update(*s)`: `super().update(make_observable(set(*s), self.on_change))` —
`set(*s)` raises `TypeError` for two or more operands (before any mutation
or `handle_event`); otherwise the converted set's elements are all added and
one `handle_event` fires. -/
def update (t : Nat) (es : List Nat) (s : List (List Nat)) : SOut :=
  match pySetOfArgs s with
  | .error e => ⟨es, .error e, []⟩
  | .ok u =>
      let m := make_observable (.vset none u) t
      ⟨setUnion es u, .ok .pynone, m.2 ++ [t]⟩

/-- `intersection_update(*s)`: keeps the elements present in every operand
(no conversion of the operands), then one `handle_event`. -/
def intersection_update (t : Nat) (es : List Nat) (s : List (List Nat)) : SOut :=
  ⟨es.filter (fun x => s.all (fun a => x ∈ a)), .ok .pynone, [t]⟩

/-- `difference_update(*s)`: removes the elements present in any operand,
then one `handle_event`. -/
def difference_update (t : Nat) (es : List Nat) (s : List (List Nat)) : SOut :=
  ⟨es.filter (fun x => s.all (fun a => x ∉ a)), .ok .pynone, [t]⟩

/-- `symmetric_difference_update(other)` (the builtin takes exactly one
iterable): keeps elements in exactly one side, then one `handle_event`. -/
def symmetric_difference_update (t : Nat) (es : List Nat) (other : List Nat) : SOut :=
  ⟨es.filter (fun x => x ∉ other) ++ (pyDedup other).filter (fun x => x ∉ es),
   .ok .pynone, [t]⟩

/-- `__or__`: `return super().__or__(other)` — a plain (bare) set union; no
mutation, no `handle_event`. -/
def __or__ (t : Nat) (es : List Nat) (other : List Nat) : SOut :=
  ⟨es, .ok (.vset none (setUnion es other)), []⟩

/-- `__ior__`: `super().__ior__(make_observable(other, self.on_change))`,
then one `handle_event`; the receiver gains the operand's elements. -/
def __ior__ (t : Nat) (es : List Nat) (other : List Nat) : SOut :=
  let m := make_observable (.vset none other) t
  ⟨setUnion es other, .ok .pynone, m.2 ++ [t]⟩

/-- `__and__`: plain (bare) intersection; no mutation, no `handle_event`. -/
def __and__ (t : Nat) (es : List Nat) (other : List Nat) : SOut :=
  ⟨es, .ok (.vset none (es.filter (fun x => x ∈ other))), []⟩

/-- `__iand__`: converts the operand, intersects in place, one `handle_event`. -/
def __iand__ (t : Nat) (es : List Nat) (other : List Nat) : SOut :=
  let m := make_observable (.vset none other) t
  ⟨es.filter (fun x => x ∈ other), .ok .pynone, m.2 ++ [t]⟩

/-- `__sub__`: plain (bare) difference; no mutation, no `handle_event`. -/
def __sub__ (t : Nat) (es : List Nat) (other : List Nat) : SOut :=
  ⟨es, .ok (.vset none (es.filter (fun x => x ∉ other))), []⟩

/-- `__isub__`: converts the operand, subtracts in place, one `handle_event`. -/
def __isub__ (t : Nat) (es : List Nat) (other : List Nat) : SOut :=
  let m := make_observable (.vset none other) t
  ⟨es.filter (fun x => x ∉ other), .ok .pynone, m.2 ++ [t]⟩

/-- `__xor__`: plain (bare) symmetric difference; no mutation, no
`handle_event`. -/
def __xor__ (t : Nat) (es : List Nat) (other : List Nat) : SOut :=
  ⟨es, .ok (.vset none (es.filter (fun x => x ∉ other) ++
      (pyDedup other).filter (fun x => x ∉ es))), []⟩

/-- `__ixor__`: converts the operand, applies symmetric difference in place,
one `handle_event`. -/
def __ixor__ (t : Nat) (es : List Nat) (other : List Nat) : SOut :=
  let m := make_observable (.vset none other) t
  ⟨es.filter (fun x => x ∉ other) ++ (pyDedup other).filter (fun x => x ∉ es),
   .ok .pynone, m.2 ++ [t]⟩

end ObservableSet

/-- Application lifecycle states (`class State(Enum)` in `app.py`). -/
inductive AppState where
  | STOPPED
  | STARTING
  | STARTED
  | STOPPING
deriving Repr, DecidableEq

/-- The slice of `App` relevant to startup-handler registration: the
lifecycle state and `_startup_handlers` (handlers identified by `Nat`). -/
structure App where
  state : AppState
  startup_handlers : List Nat
deriving Repr, DecidableEq

namespace App

/-- `App.is_started`: whether the state is `STARTED`. -/
def is_started (app : App) : Bool :=
  app.state == AppState.STARTED

/-- `App.on_startup`: raises `RuntimeError` when the app is already started,
otherwise appends the handler to `_startup_handlers`. -/
def on_startup (app : App) (handler : Nat) : App × Except PyErr Unit :=
  if app.is_started then (app, .error .runtimeError)
  else ({ app with startup_handlers := app.startup_handlers ++ [handler] }, .ok ())

end App

/-! Helper lemmas (shared by several claim theorems). -/

mutual

theorem make_observable_fired : ∀ (v : Val) (t : Nat), (make_observable v t).2 = []
  | .pynone, _ => rfl
  | .scalar _, _ => rfl
  | .vdict _ kvs, t => by
      simp [make_observable, make_observable_entries_fired kvs t]
  | .vlist _ xs, t => by
      simp [make_observable, make_observable_list_fired xs t]
  | .vset _ _, _ => rfl
  | .vtuple _, _ => rfl

theorem make_observable_entries_fired :
    ∀ (kvs : List (Nat × Val)) (t : Nat), (make_observable_entries kvs t).2 = []
  | [], _ => rfl
  | (_, v) :: rest, t => by
      simp [make_observable_entries, make_observable_fired v t,
        make_observable_entries_fired rest t]

theorem make_observable_list_fired :
    ∀ (xs : List Val) (t : Nat), (make_observable_list xs t).2 = []
  | [], _ => rfl
  | v :: rest, t => by
      simp [make_observable_list, make_observable_fired v t,
        make_observable_list_fired rest t]

end

theorem deepWrappedList_iff (t : Nat) (xs : List Val) :
    deepWrappedList t xs = true ↔ ∀ x ∈ xs, deepWrapped t x = true := by
  induction xs with
  | nil => simp [deepWrappedList]
  | cons v rest ih => simp [deepWrappedList, ih]

theorem deepWrappedEntries_iff (t : Nat) (kvs : List (Nat × Val)) :
    deepWrappedEntries t kvs = true ↔ ∀ p ∈ kvs, deepWrapped t p.2 = true := by
  induction kvs with
  | nil => simp [deepWrappedEntries]
  | cons p rest ih =>
      obtain ⟨k, v⟩ := p
      simp [deepWrappedEntries, ih]

theorem deepWrappedList_sub {t : Nat} {xs ys : List Val}
    (hsub : ∀ x ∈ ys, x ∈ xs) (h : deepWrappedList t xs = true) :
    deepWrappedList t ys = true := by
  rw [deepWrappedList_iff] at *
  exact fun x hx => h x (hsub x hx)

theorem deepWrappedEntries_sub {t : Nat} {kvs kvs' : List (Nat × Val)}
    (hsub : ∀ p ∈ kvs', p ∈ kvs) (h : deepWrappedEntries t kvs = true) :
    deepWrappedEntries t kvs' = true := by
  rw [deepWrappedEntries_iff] at *
  exact fun p hp => h p (hsub p hp)

mutual

theorem make_observable_deepWrapped :
    ∀ (v : Val) (t : Nat), containerOnly v = true →
      deepWrapped t (make_observable v t).1 = true
  | .pynone, _, _ => rfl
  | .scalar _, _, _ => rfl
  | .vdict _ kvs, t, h => by
      simp [containerOnly] at h
      simp [make_observable, deepWrapped,
        make_observable_entries_deepWrapped kvs t h]
  | .vlist _ xs, t, h => by
      simp [containerOnly] at h
      simp [make_observable, deepWrapped,
        make_observable_list_deepWrapped xs t h]
  | .vset _ _, t, _ => by simp [make_observable, deepWrapped]
  | .vtuple _, _, h => by simp [containerOnly] at h

theorem make_observable_entries_deepWrapped :
    ∀ (kvs : List (Nat × Val)) (t : Nat), containerOnlyEntries kvs = true →
      deepWrappedEntries t (make_observable_entries kvs t).1 = true
  | [], _, _ => rfl
  | (_, v) :: rest, t, h => by
      simp [containerOnlyEntries] at h
      simp [make_observable_entries, deepWrappedEntries,
        make_observable_deepWrapped v t h.1,
        make_observable_entries_deepWrapped rest t h.2]

theorem make_observable_list_deepWrapped :
    ∀ (xs : List Val) (t : Nat), containerOnlyList xs = true →
      deepWrappedList t (make_observable_list xs t).1 = true
  | [], _, _ => rfl
  | v :: rest, t, h => by
      simp [containerOnlyList] at h
      simp [make_observable_list, deepWrappedList,
        make_observable_deepWrapped v t h.1,
        make_observable_list_deepWrapped rest t h.2]

end

theorem deepWrappedEntries_assocSet {t : Nat} :
    ∀ (kvs : List (Nat × Val)) (k : Nat) (v : Val),
      deepWrappedEntries t kvs = true → deepWrapped t v = true →
      deepWrappedEntries t (assocSet kvs k v) = true
  | [], k, v, _, h2 => by simp [assocSet, deepWrappedEntries, h2]
  | (k', v') :: rest, k, v, h1, h2 => by
      simp [deepWrappedEntries] at h1
      by_cases hk : k' == k
      · simp [assocSet, hk, deepWrappedEntries, h1.2, h2]
      · simp [assocSet, hk, deepWrappedEntries, h1.1,
          deepWrappedEntries_assocSet rest k v h1.2 h2]

theorem deepWrappedEntries_assocRemove {t : Nat} :
    ∀ (kvs : List (Nat × Val)) (k : Nat),
      deepWrappedEntries t kvs = true →
      deepWrappedEntries t (assocRemove kvs k) = true
  | [], _, _ => by simp [assocRemove, deepWrappedEntries]
  | (k', v') :: rest, k, h1 => by
      simp [deepWrappedEntries] at h1
      by_cases hk : k' == k
      · simpa [assocRemove, hk, deepWrappedEntries] using h1.2
      · simp [assocRemove, hk, deepWrappedEntries, h1.1,
          deepWrappedEntries_assocRemove rest k h1.2]

theorem dictMerge_cons (a : List (Nat × Val)) (p : Nat × Val) (b : List (Nat × Val)) :
    dictMerge a (p :: b) = dictMerge (assocSet a p.1 p.2) b := rfl

theorem deepWrappedEntries_dictMerge {t : Nat} :
    ∀ (b a : List (Nat × Val)),
      deepWrappedEntries t a = true → deepWrappedEntries t b = true →
      deepWrappedEntries t (dictMerge a b) = true
  | [], a, h1, _ => h1
  | (k, v) :: rest, a, h1, h2 => by
      simp [deepWrappedEntries] at h2
      rw [dictMerge_cons]
      exact deepWrappedEntries_dictMerge rest _
        (deepWrappedEntries_assocSet a k v h1 h2.1) h2.2

theorem mem_insertSorted {le : Val → Val → Bool} {v x : Val} :
    ∀ {ys : List Val}, x ∈ insertSorted le v ys → x = v ∨ x ∈ ys
  | [], h => by simpa [insertSorted] using h
  | y :: ys, h => by
      by_cases hle : le v y
      · simpa [insertSorted, hle] using h
      · simp [insertSorted, hle] at h
        rcases h with h | h
        · exact Or.inr (by simp [h])
        · rcases mem_insertSorted h with h' | h'
          · exact Or.inl h'
          · exact Or.inr (by simp [h'])

theorem mem_pySort {le : Val → Val → Bool} {x : Val} :
    ∀ {xs : List Val}, x ∈ pySort le xs → x ∈ xs
  | [], h => by simpa [pySort] using h
  | a :: xs, h => by
      have : pySort le (a :: xs) = insertSorted le a (pySort le xs) := rfl
      rw [this] at h
      rcases mem_insertSorted h with h' | h'
      · simp [h']
      · simp [mem_pySort h']

theorem listRemoveFirst_sub {v x : Val} :
    ∀ {xs ys : List Val}, listRemoveFirst v xs = some ys → x ∈ ys → x ∈ xs
  | [], _, h, _ => by simp [listRemoveFirst] at h
  | a :: rest, ys, h, hx => by
      by_cases ha : pyEq a v
      · simp [listRemoveFirst, ha] at h
        subst h
        simp [hx]
      · simp [listRemoveFirst, ha] at h
        obtain ⟨zs, hzs, rfl⟩ := h
        cases hx with
        | head => simp
        | tail _ hx' => simp [listRemoveFirst_sub hzs hx']

theorem mem_setInsert {es : List Nat} {y x : Nat} :
    x ∈ setInsert es y ↔ x ∈ es ∨ x = y := by
  by_cases h : y ∈ es
  · simp only [setInsert, if_pos h]
    constructor
    · exact Or.inl
    · rintro (hx | rfl) <;> [exact hx; exact h]
  · simp [setInsert, if_neg h]

theorem mem_foldl_setInsert :
    ∀ (u acc : List Nat) (x : Nat), x ∈ u.foldl setInsert acc ↔ x ∈ acc ∨ x ∈ u
  | [], acc, x => by simp
  | y :: u, acc, x => by
      simp only [List.foldl_cons]
      rw [mem_foldl_setInsert u (setInsert acc y) x, mem_setInsert]
      simp only [List.mem_cons]
      tauto

theorem mem_setUnion {es u : List Nat} {x : Nat} :
    x ∈ setUnion es u ↔ x ∈ es ∨ x ∈ u :=
  mem_foldl_setInsert u es x

theorem mem_pyDedup {u : List Nat} {x : Nat} : x ∈ pyDedup u ↔ x ∈ u := by
  rw [pyDedup, mem_foldl_setInsert]
  simp

theorem listRemoveFirst_eq_none {v : Val} :
    ∀ {xs : List Val}, (∀ x ∈ xs, pyEq x v = false) → listRemoveFirst v xs = none
  | [], _ => rfl
  | a :: rest, h => by
      have ha : pyEq a v = false := h a (by simp)
      have hrest : listRemoveFirst v rest = none :=
        listRemoveFirst_eq_none (fun x hx => h x (List.mem_cons_of_mem a hx))
      simp [listRemoveFirst, ha, hrest]

theorem normIndex_nil (i : Int) : normIndex 0 i = none := by
  simp only [normIndex]
  rw [if_neg]
  split <;> omega

/-- C3: the non-mutating, new-value-producing operators (dict `|`, list `+`,
set `|`/`&`/`-`/`^`) leave the receiver unchanged, invoke no notification
target, and return a plain bare container (tag `none`) with the expected
contents. -/
theorem nonmutating_plain_and_silent :
    (∀ t kvs other, (ObservableDict.__or__ t kvs other).entries = kvs ∧
      (ObservableDict.__or__ t kvs other).fired = [] ∧
      (ObservableDict.__or__ t kvs other).ret =
        .ok (Val.vdict none (dictMerge kvs other))) ∧
    (∀ t xs other, (ObservableList.__add__ t xs other).elems = xs ∧
      (ObservableList.__add__ t xs other).fired = [] ∧
      (ObservableList.__add__ t xs other).ret = .ok (Val.vlist none (xs ++ other))) ∧
    (∀ t es other, (ObservableSet.__or__ t es other).elems = es ∧
      (ObservableSet.__or__ t es other).fired = [] ∧
      ∃ u, (ObservableSet.__or__ t es other).ret = .ok (Val.vset none u) ∧
        ∀ x, x ∈ u ↔ (x ∈ es ∨ x ∈ other)) ∧
    (∀ t es other, (ObservableSet.__and__ t es other).elems = es ∧
      (ObservableSet.__and__ t es other).fired = [] ∧
      ∃ u, (ObservableSet.__and__ t es other).ret = .ok (Val.vset none u) ∧
        ∀ x, x ∈ u ↔ (x ∈ es ∧ x ∈ other)) ∧
    (∀ t es other, (ObservableSet.__sub__ t es other).elems = es ∧
      (ObservableSet.__sub__ t es other).fired = [] ∧
      ∃ u, (ObservableSet.__sub__ t es other).ret = .ok (Val.vset none u) ∧
        ∀ x, x ∈ u ↔ (x ∈ es ∧ x ∉ other)) ∧
    (∀ t es other, (ObservableSet.__xor__ t es other).elems = es ∧
      (ObservableSet.__xor__ t es other).fired = [] ∧
      ∃ u, (ObservableSet.__xor__ t es other).ret = .ok (Val.vset none u) ∧
        ∀ x, x ∈ u ↔ ((x ∈ es ∧ x ∉ other) ∨ (x ∈ other ∧ x ∉ es))) := by
  refine ⟨fun t kvs other => ⟨rfl, rfl, rfl⟩,
    fun t xs other => ⟨rfl, rfl, rfl⟩,
    fun t es other => ⟨rfl, rfl, _, rfl, fun x => ?_⟩,
    fun t es other => ⟨rfl, rfl, _, rfl, fun x => ?_⟩,
    fun t es other => ⟨rfl, rfl, _, rfl, fun x => ?_⟩,
    fun t es other => ⟨rfl, rfl, _, rfl, fun x => ?_⟩⟩
  · exact mem_setUnion
  · simp
  · simp
  · simp [mem_pyDedup]

/-- C4: every failing mutating operation — deleting an absent dict key,
removing an absent list/set element by value, popping an empty dict
(`popitem`) or set, popping an empty or out-of-range list index — raises
its error synchronously (as the returned `Except.error`), fires no
notification, and leaves the contents unchanged. -/
theorem failing_ops_atomic_and_silent :
    (∀ t kvs k, assocLookup kvs k = none →
      ObservableDict.delitem t kvs k = ⟨kvs, .error .keyError, []⟩) ∧
    (∀ t xs v, (∀ x ∈ xs, pyEq x v = false) →
      ObservableList.remove t xs v = ⟨xs, .error .valueError, []⟩) ∧
    (∀ t es x, x ∉ es →
      ObservableSet.remove t es x = ⟨es, .error .keyError, []⟩) ∧
    (∀ t, ObservableDict.popitem t [] = ⟨[], .error .keyError, []⟩) ∧
    (∀ t, ObservableSet.pop t [] = ⟨[], .error .keyError, []⟩) ∧
    (∀ t i, ObservableList.pop t [] i = ⟨[], .error .indexError, []⟩) ∧
    (∀ t xs i, normIndex xs.length i = none →
      ObservableList.pop t xs i = ⟨xs, .error .indexError, []⟩) := by
  refine ⟨fun t kvs k h => ?_, fun t xs v h => ?_, fun t es x h => ?_,
    fun t => rfl, fun t => rfl, fun t i => ?_, fun t xs i h => ?_⟩
  · simp [ObservableDict.delitem, h]
  · simp [ObservableList.remove, listRemoveFirst_eq_none h]
  · simp [ObservableSet.remove, h]
  · simp [ObservableList.pop, normIndex_nil]
  · simp [ObservableList.pop, h]

theorem failing_ops_atomic_and_silent_witness :
    ObservableDict.delitem 0 [(1, Val.scalar 5)] 2 =
      ⟨[(1, Val.scalar 5)], .error .keyError, []⟩ ∧
    ObservableList.remove 0 [Val.scalar 1] (Val.scalar 2) =
      ⟨[Val.scalar 1], .error .valueError, []⟩ ∧
    ObservableSet.remove 0 [1] 2 = ⟨[1], .error .keyError, []⟩ ∧
    ObservableList.pop 0 [Val.scalar 1] 5 =
      ⟨[Val.scalar 1], .error .indexError, []⟩ :=
  ⟨failing_ops_atomic_and_silent.1 0 [(1, Val.scalar 5)] 2 rfl,
   failing_ops_atomic_and_silent.2.1 0 [Val.scalar 1] (Val.scalar 2)
     (by intro x hx; simp at hx; subst hx; rfl),
   failing_ops_atomic_and_silent.2.2.1 0 [1] 2 (by decide),
   failing_ops_atomic_and_silent.2.2.2.2.2.2 0 [Val.scalar 1] 5 (by decide)⟩

/-- C5: operations under the unconditional-notification policy fire the
target even with no state change: `dict.pop` returns the default and fires
when the key is absent, `setdefault` fires whether or not it inserted,
`clear` on empty containers fires, `set.discard` of an absent element fires
and leaves the set unchanged, and `list.sort`/`list.reverse` always fire. -/
theorem unconditional_notification_policy :
    (∀ t kvs k d, assocLookup kvs k = none →
      ObservableDict.pop t kvs k d = ⟨kvs, .ok d, [t]⟩) ∧
    (∀ t kvs k d, (ObservableDict.setdefault t kvs k d).fired = [t]) ∧
    (∀ t, ObservableDict.clear t [] = ⟨[], .ok .pynone, [t]⟩) ∧
    (∀ t, ObservableList.clear t [] = ⟨[], .ok .pynone, [t]⟩) ∧
    (∀ t, ObservableSet.clear t [] = ⟨[], .ok .pynone, [t]⟩) ∧
    (∀ t es x, x ∉ es → ObservableSet.discard t es x = ⟨es, .ok .pynone, [t]⟩) ∧
    (∀ t xs le, (ObservableList.sort t xs le).fired = [t]) ∧
    (∀ t xs, (ObservableList.reverse t xs).fired = [t]) := by
  refine ⟨fun t kvs k d h => ?_, fun t kvs k d => ?_, fun t => rfl, fun t => rfl,
    fun t => rfl, fun t es x h => ?_, fun t xs le => rfl, fun t xs => rfl⟩
  · simp [ObservableDict.pop, h]
  · cases hk : assocLookup kvs k <;>
      simp [ObservableDict.setdefault, hk, make_observable_fired]
  · have hfe : ∀ a ∈ es, a ≠ x := fun a ha hax => h (hax ▸ ha)
    simp only [ObservableSet.discard]
    rw [List.filter_eq_self.mpr (fun a ha => by simp [hfe a ha])]

theorem unconditional_notification_policy_witness :
    ObservableDict.pop 0 [] 1 (Val.scalar 7) = ⟨[], .ok (Val.scalar 7), [0]⟩ ∧
    ObservableSet.discard 0 [1] 2 = ⟨[1], .ok .pynone, [0]⟩ :=
  ⟨unconditional_notification_policy.1 0 [] 1 (Val.scalar 7) rfl,
   unconditional_notification_policy.2.2.2.2.2.1 0 [1] 2 (by decide)⟩

/-- C6: evaluation at the failing input — `update` on a wrapped set with two
iterable operands raises `TypeError` (because `set(*s)` passes both to the
`set` constructor), mutates nothing and fires no notification, contrary to
the documented variadic contract. -/
theorem set_update_two_operands_typeerror :
    ObservableSet.update 0 [1] [[2], [3]] = ⟨[1], .error .typeError, []⟩ := rfl

/-- C7: `make_observable` returns a fresh wrapper (tag `some t`) for a dict,
list or set, returns every other value unchanged with no copy, and never
invokes a notification target, whatever the input. -/
theorem make_observable_dispatch_and_silent :
    ∀ t : Nat,
      (∀ tag kvs, ∃ kvs',
        (make_observable (Val.vdict tag kvs) t).1 = Val.vdict (some t) kvs') ∧
      (∀ tag xs, ∃ xs',
        (make_observable (Val.vlist tag xs) t).1 = Val.vlist (some t) xs') ∧
      (∀ tag es, (make_observable (Val.vset tag es) t).1 = Val.vset (some t) es) ∧
      (∀ n, make_observable (Val.scalar n) t = (Val.scalar n, [])) ∧
      (make_observable Val.pynone t = (Val.pynone, [])) ∧
      (∀ xs, make_observable (Val.vtuple xs) t = (Val.vtuple xs, [])) ∧
      (∀ v, (make_observable v t).2 = []) :=
  fun t =>
    ⟨fun tag kvs => ⟨(make_observable_entries kvs t).1, rfl⟩,
     fun tag xs => ⟨(make_observable_list xs t).1, rfl⟩,
     fun tag es => rfl,
     fun n => rfl,
     rfl,
     fun xs => rfl,
     fun v => make_observable_fired v t⟩

/-- C8: `make_observable` dispatches only on dict/list/set; a tuple (or any
scalar) passes through unchanged, so a dict inside a tuple operand of
`list.__iadd__` is stored bare — tagged `none`, hence not deep-wrapped for
any target. -/
theorem non_dispatched_values_stay_bare :
    (∀ t xs, make_observable (Val.vtuple xs) t = (Val.vtuple xs, [])) ∧
    (∀ t n, make_observable (Val.scalar n) t = (Val.scalar n, [])) ∧
    (∀ t xs kvs,
      ObservableList.__iadd__ t xs (Val.vtuple [Val.vdict none kvs]) =
        ⟨xs ++ [Val.vdict none kvs], .ok .pynone, [t]⟩) ∧
    (∀ u kvs, deepWrapped u (Val.vdict none kvs) = false) := by
  refine ⟨fun t xs => rfl, fun t n => rfl, fun t xs kvs => rfl,
    fun u kvs => ?_⟩
  simp [deepWrapped]

/-- C9: `ObservableDict.pop` never raises — its `d` parameter defaults to
`None`, so a one-argument call on an absent key returns `None` (not an
error) and still fires the notification. -/
theorem dict_pop_never_raises :
    (∀ t kvs k d, ∃ v, (ObservableDict.pop t kvs k d).ret = .ok v) ∧
    (∀ t kvs k d, (ObservableDict.pop t kvs k d).fired = [t]) ∧
    (∀ t kvs k, assocLookup kvs k = none →
      ObservableDict.pop t kvs k = ⟨kvs, .ok Val.pynone, [t]⟩) := by
  refine ⟨fun t kvs k d => ?_, fun t kvs k d => ?_, fun t kvs k h => ?_⟩
  · cases h : assocLookup kvs k <;> simp [ObservableDict.pop, h]
  · cases h : assocLookup kvs k <;> simp [ObservableDict.pop, h]
  · simp [ObservableDict.pop, h]

theorem dict_pop_never_raises_witness :
    ObservableDict.pop 0 [(1, Val.scalar 5)] 2 =
      ⟨[(1, Val.scalar 5)], .ok Val.pynone, [0]⟩ :=
  dict_pop_never_raises.2.2 0 [(1, Val.scalar 5)] 2 rfl

/-- C10: `App.on_startup` raises `RuntimeError` and leaves the registered
startup handlers unchanged when the app is already `STARTED`; in every other
lifecycle state it appends the handler and raises nothing. -/
theorem on_startup_started_raises :
    ∀ (app : App) (h : Nat),
      (app.is_started = true →
        App.on_startup app h = (app, .error .runtimeError)) ∧
      (app.is_started = false →
        App.on_startup app h =
          ({ state := app.state,
             startup_handlers := app.startup_handlers ++ [h] }, .ok ())) := by
  intro app h
  constructor <;> intro hs <;> simp [App.on_startup, hs]

theorem on_startup_started_raises_witness :
    App.on_startup ⟨AppState.STARTED, [4]⟩ 7 =
      (⟨AppState.STARTED, [4]⟩, .error .runtimeError) ∧
    App.on_startup ⟨AppState.STOPPED, [4]⟩ 7 =
      (⟨AppState.STOPPED, [4, 7]⟩, .ok ()) :=
  ⟨(on_startup_started_raises ⟨AppState.STARTED, [4]⟩ 7).1 rfl,
   (on_startup_started_raises ⟨AppState.STOPPED, [4]⟩ 7).2 rfl⟩

/-- C2: every mutating operation that completes without raising invokes the
notification target exactly once per call — batched operations (dict
`update`, list `extend`, set `update`, the in-place `|=`/`+=`/`&=`/`-=`/`^=`
operators) fire once for the whole batch, and the recursive conversion of
nested elements contributes no invocation. -/
theorem notify_exactly_once_per_call :
    (∀ t kvs k v, (ObservableDict.setitem t kvs k v).fired = [t]) ∧
    (∀ t kvs k v, assocLookup kvs k = some v →
      (ObservableDict.delitem t kvs k).fired = [t]) ∧
    (∀ t kvs k d, (ObservableDict.pop t kvs k d).fired = [t]) ∧
    (∀ t kvs p, kvs.getLast? = some p →
      (ObservableDict.popitem t kvs).fired = [t]) ∧
    (∀ t kvs other, (ObservableDict.update t kvs other).fired = [t]) ∧
    (∀ t kvs, (ObservableDict.clear t kvs).fired = [t]) ∧
    (∀ t kvs k d, (ObservableDict.setdefault t kvs k d).fired = [t]) ∧
    (∀ t kvs other, (ObservableDict.__ior__ t kvs other).fired = [t]) ∧
    (∀ t xs item, (ObservableList.append t xs item).fired = [t]) ∧
    (∀ t xs it es, elementsOf it = .ok es →
      (ObservableList.extend t xs it).fired = [t]) ∧
    (∀ t xs i v, (ObservableList.insert t xs i v).fired = [t]) ∧
    (∀ t xs v ys, listRemoveFirst v xs = some ys →
      (ObservableList.remove t xs v).fired = [t]) ∧
    (∀ t xs i j, normIndex xs.length i = some j →
      (ObservableList.pop t xs i).fired = [t]) ∧
    (∀ t xs, (ObservableList.clear t xs).fired = [t]) ∧
    (∀ t xs le, (ObservableList.sort t xs le).fired = [t]) ∧
    (∀ t xs, (ObservableList.reverse t xs).fired = [t]) ∧
    (∀ t xs i j v, normIndex xs.length i = some j →
      (ObservableList.setitem t xs i v).fired = [t]) ∧
    (∀ t xs i j, normIndex xs.length i = some j →
      (ObservableList.delitem t xs i).fired = [t]) ∧
    (∀ t xs other es, elementsOf (make_observable other t).1 = .ok es →
      (ObservableList.__iadd__ t xs other).fired = [t]) ∧
    (∀ t es x, (ObservableSet.add t es x).fired = [t]) ∧
    (∀ t es x, x ∈ es → (ObservableSet.remove t es x).fired = [t]) ∧
    (∀ t es x, (ObservableSet.discard t es x).fired = [t]) ∧
    (∀ t x rest, (ObservableSet.pop t (x :: rest)).fired = [t]) ∧
    (∀ t es, (ObservableSet.clear t es).fired = [t]) ∧
    (∀ t es a, (ObservableSet.update t es [a]).fired = [t]) ∧
    (∀ t es, (ObservableSet.update t es []).fired = [t]) ∧
    (∀ t es s, (ObservableSet.intersection_update t es s).fired = [t]) ∧
    (∀ t es s, (ObservableSet.difference_update t es s).fired = [t]) ∧
    (∀ t es o, (ObservableSet.symmetric_difference_update t es o).fired = [t]) ∧
    (∀ t es o, (ObservableSet.__ior__ t es o).fired = [t]) ∧
    (∀ t es o, (ObservableSet.__iand__ t es o).fired = [t]) ∧
    (∀ t es o, (ObservableSet.__isub__ t es o).fired = [t]) ∧
    (∀ t es o, (ObservableSet.__ixor__ t es o).fired = [t]) := by
  refine ⟨fun t kvs k v => ?_, fun t kvs k v h => ?_, fun t kvs k d => ?_,
    fun t kvs p h => ?_, fun t kvs other => ?_, fun t kvs => rfl,
    fun t kvs k d => ?_, fun t kvs other => ?_, fun t xs item => ?_,
    fun t xs it es h => ?_, fun t xs i v => ?_, fun t xs v ys h => ?_,
    fun t xs i j h => ?_, fun t xs => rfl, fun t xs le => rfl, fun t xs => rfl,
    fun t xs i j v h => ?_, fun t xs i j h => ?_, fun t xs other es h => ?_,
    fun t es x => ?_, fun t es x h => ?_, fun t es x => rfl,
    fun t x rest => rfl, fun t es => rfl, fun t es a => ?_, fun t es => ?_,
    fun t es s => rfl, fun t es s => rfl, fun t es o => rfl,
    fun t es o => ?_, fun t es o => ?_, fun t es o => ?_, fun t es o => ?_⟩
  · simp [ObservableDict.setitem, make_observable_fired]
  · simp [ObservableDict.delitem, h]
  · cases h : assocLookup kvs k <;> simp [ObservableDict.pop, h]
  · simp [ObservableDict.popitem, h]
  · simp [ObservableDict.update, make_observable_entries_fired]
  · cases h : assocLookup kvs k <;>
      simp [ObservableDict.setdefault, h, make_observable_fired]
  · simp [ObservableDict.__ior__, make_observable_entries_fired]
  · simp [ObservableList.append, make_observable_fired]
  · simp [ObservableList.extend, h, make_observable_list_fired]
  · simp [ObservableList.insert, make_observable_fired]
  · simp [ObservableList.remove, h]
  · simp [ObservableList.pop, h]
  · simp [ObservableList.setitem, h, make_observable_fired]
  · simp [ObservableList.delitem, h]
  · simp [ObservableList.__iadd__, h, make_observable_fired]
  · simp [ObservableSet.add, make_observable_fired]
  · simp [ObservableSet.remove, h]
  · simp [ObservableSet.update, pySetOfArgs, make_observable_fired]
  · simp [ObservableSet.update, pySetOfArgs, make_observable_fired]
  · simp [ObservableSet.__ior__, make_observable_fired]
  · simp [ObservableSet.__iand__, make_observable_fired]
  · simp [ObservableSet.__isub__, make_observable_fired]
  · simp [ObservableSet.__ixor__, make_observable_fired]

theorem notify_exactly_once_per_call_witness :
    (ObservableList.remove 0 [Val.scalar 1] (Val.scalar 1)).fired = [0] ∧
    (ObservableDict.delitem 0 [(1, Val.scalar 5)] 1).fired = [0] ∧
    (ObservableList.extend 0 [] (Val.vlist none [Val.scalar 3])).fired = [0] := by
  obtain ⟨_, h2, _, _, _, _, _, _, _, h10, _, h12, _⟩ := notify_exactly_once_per_call
  exact ⟨h12 0 [Val.scalar 1] (Val.scalar 1) [] rfl,
    h2 0 [(1, Val.scalar 5)] 1 (Val.scalar 5) rfl,
    h10 0 [] (Val.vlist none [Val.scalar 3]) [Val.scalar 3] rfl⟩

theorem deepWrappedList_append {t : Nat} {a b : List Val}
    (h1 : deepWrappedList t a = true) (h2 : deepWrappedList t b = true) :
    deepWrappedList t (a ++ b) = true := by
  rw [deepWrappedList_iff] at *
  intro x hx
  rcases List.mem_append.mp hx with h | h
  · exact h1 x h
  · exact h2 x h

theorem deepWrappedEntries_append {t : Nat} {a b : List (Nat × Val)}
    (h1 : deepWrappedEntries t a = true) (h2 : deepWrappedEntries t b = true) :
    deepWrappedEntries t (a ++ b) = true := by
  rw [deepWrappedEntries_iff] at *
  intro p hp
  rcases List.mem_append.mp hp with h | h
  · exact h1 p h
  · exact h2 p h

theorem containerOnlyList_map_scalar {α : Type} (f : α → Nat) :
    ∀ (l : List α), containerOnlyList (l.map (fun x => Val.scalar (f x))) = true
  | [] => rfl
  | x :: rest => by
      simp [containerOnlyList, containerOnly, containerOnlyList_map_scalar f rest]

theorem deepWrappedList_map_scalar {α : Type} (t : Nat) (f : α → Nat) :
    ∀ (l : List α), deepWrappedList t (l.map (fun x => Val.scalar (f x))) = true
  | [] => rfl
  | x :: rest => by
      simp [deepWrappedList, deepWrapped, deepWrappedList_map_scalar t f rest]

theorem elementsOf_containerOnly {it : Val} (h : containerOnly it = true) :
    (∃ e, elementsOf it = .error e) ∨
    (∃ es, elementsOf it = .ok es ∧ containerOnlyList es = true) := by
  cases it with
  | pynone => exact Or.inl ⟨_, rfl⟩
  | scalar n => exact Or.inl ⟨_, rfl⟩
  | vtuple xs => simp [containerOnly] at h
  | vdict tag kvs =>
      exact Or.inr ⟨_, rfl, containerOnlyList_map_scalar Prod.fst kvs⟩
  | vlist tag xs =>
      exact Or.inr ⟨_, rfl, by simpa [containerOnly] using h⟩
  | vset tag es =>
      exact Or.inr ⟨_, rfl, containerOnlyList_map_scalar (fun x => x) es⟩

/-- C1: deep-wrapping invariant.  `make_observable` on any tuple-free nesting
of dicts/lists/sets yields a tree in which every reachable sub-container is
wrapped with the given target, and every mutating operation of every wrapper
preserves that invariant for the receiver's contents (inserted values being
converted with the receiver's own target). -/
theorem deep_wrapping_invariant :
    (∀ t v, containerOnly v = true →
      deepWrapped t (make_observable v t).1 = true) ∧
    (∀ t kvs k v, deepWrappedEntries t kvs = true → containerOnly v = true →
      deepWrappedEntries t (ObservableDict.setitem t kvs k v).entries = true) ∧
    (∀ t kvs k, deepWrappedEntries t kvs = true →
      deepWrappedEntries t (ObservableDict.delitem t kvs k).entries = true) ∧
    (∀ t kvs k d, deepWrappedEntries t kvs = true →
      deepWrappedEntries t (ObservableDict.pop t kvs k d).entries = true) ∧
    (∀ t kvs, deepWrappedEntries t kvs = true →
      deepWrappedEntries t (ObservableDict.popitem t kvs).entries = true) ∧
    (∀ t kvs other, deepWrappedEntries t kvs = true →
      containerOnlyEntries other = true →
      deepWrappedEntries t (ObservableDict.update t kvs other).entries = true) ∧
    (∀ t kvs, deepWrappedEntries t (ObservableDict.clear t kvs).entries = true) ∧
    (∀ t kvs k d, deepWrappedEntries t kvs = true → containerOnly d = true →
      deepWrappedEntries t (ObservableDict.setdefault t kvs k d).entries = true) ∧
    (∀ t kvs other, deepWrappedEntries t kvs = true →
      containerOnlyEntries other = true →
      deepWrappedEntries t (ObservableDict.__ior__ t kvs other).entries = true) ∧
    (∀ t xs item, deepWrappedList t xs = true → containerOnly item = true →
      deepWrappedList t (ObservableList.append t xs item).elems = true) ∧
    (∀ t xs it, deepWrappedList t xs = true → containerOnly it = true →
      deepWrappedList t (ObservableList.extend t xs it).elems = true) ∧
    (∀ t xs i v, deepWrappedList t xs = true → containerOnly v = true →
      deepWrappedList t (ObservableList.insert t xs i v).elems = true) ∧
    (∀ t xs v, deepWrappedList t xs = true →
      deepWrappedList t (ObservableList.remove t xs v).elems = true) ∧
    (∀ t xs i, deepWrappedList t xs = true →
      deepWrappedList t (ObservableList.pop t xs i).elems = true) ∧
    (∀ t xs, deepWrappedList t (ObservableList.clear t xs).elems = true) ∧
    (∀ t xs le, deepWrappedList t xs = true →
      deepWrappedList t (ObservableList.sort t xs le).elems = true) ∧
    (∀ t xs, deepWrappedList t xs = true →
      deepWrappedList t (ObservableList.reverse t xs).elems = true) ∧
    (∀ t xs i v, deepWrappedList t xs = true → containerOnly v = true →
      deepWrappedList t (ObservableList.setitem t xs i v).elems = true) ∧
    (∀ t xs i, deepWrappedList t xs = true →
      deepWrappedList t (ObservableList.delitem t xs i).elems = true) ∧
    (∀ t xs other, deepWrappedList t xs = true → containerOnly other = true →
      deepWrappedList t (ObservableList.__iadd__ t xs other).elems = true) ∧
    (∀ t es x, deepWrapped t (Val.vset (some t) (ObservableSet.add t es x).elems) = true) ∧
    (∀ t es s, deepWrapped t (Val.vset (some t) (ObservableSet.update t es s).elems) = true) ∧
    (∀ t es o, deepWrapped t (Val.vset (some t) (ObservableSet.__ior__ t es o).elems) = true) := by
  refine ⟨fun t v h => make_observable_deepWrapped v t h,
    fun t kvs k v h1 h2 => ?_, fun t kvs k h1 => ?_, fun t kvs k d h1 => ?_,
    fun t kvs h1 => ?_, fun t kvs other h1 h2 => ?_, fun t kvs => rfl,
    fun t kvs k d h1 h2 => ?_, fun t kvs other h1 h2 => ?_,
    fun t xs item h1 h2 => ?_, fun t xs it h1 h2 => ?_,
    fun t xs i v h1 h2 => ?_, fun t xs v h1 => ?_, fun t xs i h1 => ?_,
    fun t xs => rfl, fun t xs le h1 => ?_, fun t xs h1 => ?_,
    fun t xs i v h1 h2 => ?_, fun t xs i h1 => ?_, fun t xs other h1 h2 => ?_,
    fun t es x => by simp [deepWrapped], fun t es s => by simp [deepWrapped],
    fun t es o => by simp [deepWrapped]⟩
  · exact deepWrappedEntries_assocSet kvs k _ h1
      (make_observable_deepWrapped v t h2)
  · cases hk : assocLookup kvs k <;> simp only [ObservableDict.delitem, hk]
    · exact h1
    · exact deepWrappedEntries_assocRemove kvs k h1
  · cases hk : assocLookup kvs k <;> simp only [ObservableDict.pop, hk]
    · exact h1
    · exact deepWrappedEntries_assocRemove kvs k h1
  · cases hk : kvs.getLast? <;> simp only [ObservableDict.popitem, hk]
    · exact h1
    · exact deepWrappedEntries_sub (fun p hp => List.dropLast_subset kvs hp) h1
  · exact deepWrappedEntries_dictMerge _ kvs h1
      (make_observable_entries_deepWrapped other t h2)
  · cases hk : assocLookup kvs k <;> simp only [ObservableDict.setdefault, hk]
    · exact deepWrappedEntries_append h1 (by
        simp [deepWrappedEntries, make_observable_deepWrapped d t h2])
    · exact h1
  · exact deepWrappedEntries_dictMerge _ kvs h1
      (make_observable_entries_deepWrapped other t h2)
  · exact deepWrappedList_append h1 (by
      simp [deepWrappedList, make_observable_deepWrapped item t h2])
  · rcases elementsOf_containerOnly h2 with ⟨e, he⟩ | ⟨es, he, hcol⟩ <;>
      simp only [ObservableList.extend, he]
    · exact h1
    · exact deepWrappedList_append h1 (make_observable_list_deepWrapped es t hcol)
  · apply deepWrappedList_append
      (deepWrappedList_sub (fun x hx => List.take_subset _ xs hx) h1)
    simp [deepWrappedList, make_observable_deepWrapped v t h2,
      deepWrappedList_sub (fun x hx => List.drop_subset _ xs hx) h1]
  · cases hr : listRemoveFirst v xs <;> simp only [ObservableList.remove, hr]
    · exact h1
    · exact deepWrappedList_sub (fun x hx => listRemoveFirst_sub hr hx) h1
  · cases hn : normIndex xs.length i <;> simp only [ObservableList.pop, hn]
    · exact h1
    · exact deepWrappedList_append
        (deepWrappedList_sub (fun x hx => List.take_subset _ xs hx) h1)
        (deepWrappedList_sub (fun x hx => List.drop_subset _ xs hx) h1)
  · exact deepWrappedList_sub (fun x hx => mem_pySort hx) h1
  · exact deepWrappedList_sub (fun x hx => List.mem_reverse.mp hx) h1
  · cases hn : normIndex xs.length i <;> simp only [ObservableList.setitem, hn]
    · exact h1
    · apply deepWrappedList_append
        (deepWrappedList_sub (fun x hx => List.take_subset _ xs hx) h1)
      simp [deepWrappedList, make_observable_deepWrapped v t h2,
        deepWrappedList_sub (fun x hx => List.drop_subset _ xs hx) h1]
  · cases hn : normIndex xs.length i <;> simp only [ObservableList.delitem, hn]
    · exact h1
    · exact deepWrappedList_append
        (deepWrappedList_sub (fun x hx => List.take_subset _ xs hx) h1)
        (deepWrappedList_sub (fun x hx => List.drop_subset _ xs hx) h1)
  · cases other with
    | pynone => exact h1
    | scalar n => exact h1
    | vtuple ys => simp [containerOnly] at h2
    | vdict tag kvs =>
        simp only [ObservableList.__iadd__, make_observable, elementsOf]
        exact deepWrappedList_append h1 (deepWrappedList_map_scalar t Prod.fst _)
    | vlist tag ys =>
        simp only [ObservableList.__iadd__, make_observable, elementsOf]
        exact deepWrappedList_append h1
          (make_observable_list_deepWrapped ys t (by simpa [containerOnly] using h2))
    | vset tag es =>
        simp only [ObservableList.__iadd__, make_observable, elementsOf]
        exact deepWrappedList_append h1 (deepWrappedList_map_scalar t (fun x => x) es)

theorem deep_wrapping_invariant_witness :
    containerOnly (Val.vdict none [(1, Val.vlist none [Val.scalar 2,
      Val.vset none [3]])]) = true ∧
    deepWrapped 0 (make_observable (Val.vdict none [(1, Val.vlist none
      [Val.scalar 2, Val.vset none [3]])]) 0).1 = true ∧
    deepWrappedEntries 0 (ObservableDict.setitem 0 [] 1
      (Val.vlist none [Val.vdict none [(2, Val.scalar 3)]])).entries = true := by
  obtain ⟨hroot, hset, _⟩ := deep_wrapping_invariant
  exact ⟨rfl, hroot 0 _ rfl, hset 0 [] 1 _ rfl rfl⟩
